import Mathlib

/-!
A shallow embedding of the MissionSet web application (src/app/main.py): the
relational store rows, the session/identity resolution, the report CRUD and
comment handlers, the dashboard aggregation, the module (label) filter, and
the best-effort search-index synchronization.  Python strings are modelled by
Lean `String` (character lists), machine integers by `Nat`/`Int`, fallible
external calls by `Option`/`Except` or an explicit success flag in `Env`.
Calendar dates (the 10-character ISO prefix of a timestamp) are modelled by
their day ordinal as an `Int`; lexicographic comparison of valid ISO date
strings agrees with ordinal comparison.
-/

namespace MissionSet

/-- ALLOWED_LABELS from main.py: the fixed label enumeration. -/
def ALLOWED_LABELS : List String := ["Recon", "Mission", "Medical", "Emergency", "Notice"]

/-- A row of the users table. -/
structure UserRow where
  id : Nat
  username : String
  passwordHash : String
  isAdmin : Bool
  isActive : Bool
  createdAt : String
  deriving Repr, DecidableEq

/-- A row of the profiles table (fields beyond name are immaterial to the claims). -/
structure ProfileRow where
  userId : Nat
  name : String
  updatedAt : String
  deriving Repr, DecidableEq

/-- A row of the items table.  `createdDay` models `substr(created_at,1,10)`
(the calendar date of `created_at`) as a day ordinal. -/
structure ItemRow where
  id : Nat
  title : String
  description : String
  tags : String
  createdAt : String
  createdDay : Int
  author : String
  authorUserId : Option Nat
  startTime : String
  endTime : String
  deriving Repr, DecidableEq

/-- A row of the comments table. -/
structure CommentRow where
  id : Nat
  itemId : Nat
  userId : Nat
  content : String
  createdAt : String
  deriving Repr, DecidableEq

/-- The search document mirrored into the external index (see index_item_in_os). -/
structure IndexDoc where
  title : String
  description : String
  tags : List String
  author : String
  startTime : String
  endTime : String
  createdAt : String
  deriving Repr, DecidableEq

/-- The relational store: the four tables plus the AUTOINCREMENT counters. -/
structure Store where
  items : List ItemRow
  users : List UserRow
  profiles : List ProfileRow
  comments : List CommentRow
  nextItemId : Nat
  nextUserId : Nat
  nextCommentId : Nat
  deriving Repr, DecidableEq

/-- Store plus the external search index (documents keyed by the item id as a string). -/
structure AppState where
  store : Store
  index : List (String × IndexDoc)
  deriving Repr, DecidableEq

/-- The HTTP responses the handlers produce: a 303 RedirectResponse, a rendered
TemplateResponse with its status code, or a raised HTTPException. -/
inductive Response where
  | redirect (url : String)
  | template (name : String) (status : Nat)
  | httpError (status : Nat) (detail : String)
  deriving Repr, DecidableEq

/-- The ambient effects of a request: `parseDT` models `datetime.fromisoformat`
(`none` = ValueError, `some` = the parsed timestamp as a point on the time
line), `hashPw` models `bcrypt.hash`, `now` models `datetime.utcnow().isoformat()`,
`todayOrd` the day ordinal of `utcnow().date()`, and `indexOk` whether calls to
the OpenSearch client succeed (when `false` the client raises). -/
structure Env where
  parseDT : String → Option Int
  hashPw : String → String
  now : String
  todayOrd : Int
  indexOk : Bool

/-- current_user: resolve the session uid to an active user row
(`SELECT * FROM users WHERE id = :id AND is_active=1`). -/
def currentUser (store : Store) (sessionUid : Option Nat) : Option UserRow :=
  match sessionUid with
  | none => none
  | some uid => store.users.find? (fun u => u.id == uid && u.isActive)

/-- get_profile's name field: the stored profile name, or "" from the default dict. -/
def getProfileName (store : Store) (uid : Nat) : String :=
  match store.profiles.find? (fun p => p.userId == uid) with
  | some p => p.name
  | none => ""

/-- The author snapshot used by the item writers: `prof.get("name") or u["username"]`
(the empty profile name is falsy, so it falls back to the username). -/
def authorNameFor (store : Store) (u : UserRow) : String :=
  let n := getProfileName store u.id
  if n = "" then u.username else n

/-- get_last_n_days:
`[(today - timedelta(days=i)).isoformat() for i in range(n-1,-1,-1)]`, with
dates as day ordinals. -/
def get_last_n_days (n : Nat) (today : Int) : List Int :=
  (List.range n).map (fun j => today - ((n : Int) - 1 - (j : Int)))

/-- Python `s.split(sep)` for a single-character separator, on character lists
(splitting "" yields [""], exactly as in Python). -/
def splitChar (sep : Char) : List Char → List (List Char)
  | [] => [[]]
  | c :: cs =>
    match splitChar sep cs with
    | [] => if c = sep then [[], []] else [[c]]
    | t :: rest => if c = sep then [] :: t :: rest else (c :: t) :: rest

/-- Python `s.strip()`: drop leading and trailing whitespace. -/
def pyStrip (cs : List Char) : List Char :=
  ((cs.dropWhile Char.isWhitespace).reverse.dropWhile Char.isWhitespace).reverse

/-- The tokenization `[t.strip() for t in tags.split(",") if t.strip()]` used by
both index_item_in_os and compute_dashboard_stats. -/
def tagTokens (tags : String) : List String :=
  (((splitChar ',' tags.data).map pyStrip).filter (fun t => t ≠ [])).map (fun cs => String.mk cs)

/-- Python `",".join(ts)`. -/
def commaJoin : List String → String
  | [] => ""
  | [t] => t
  | t :: u :: ts => t ++ "," ++ commaJoin (u :: ts)

/-- `commaJoin` at the character-list level (used to reason about the
delimiter-wrapped LIKE filter). -/
def charJoin (sep : Char) : List (List Char) → List Char
  | [] => []
  | [t] => t
  | t :: u :: ts => t ++ sep :: charJoin sep (u :: ts)

/-- `[l for l in labels if l in ALLOWED_LABELS]`: unknown labels are silently
dropped by the item writers. -/
def keptLabels (labels : List String) : List String :=
  labels.filter (fun l => decide (l ∈ ALLOWED_LABELS))

/-- The search document built from an item row by index_item_in_os. -/
def docOfItem (it : ItemRow) : IndexDoc :=
  { title := it.title, description := it.description, tags := tagTokens it.tags,
    author := it.author, startTime := it.startTime, endTime := it.endTime,
    createdAt := it.createdAt }

/-- `os_client.index(index=…, id=key, body=doc)`: upsert keyed by the document id. -/
def osUpsert (idx : List (String × IndexDoc)) (key : String) (doc : IndexDoc) :
    List (String × IndexDoc) :=
  (key, doc) :: idx.filter (fun kv => kv.1 ≠ key)

/-- `os_client.delete(index=…, id=key, ignore=[404])`: remove the document if
present; absence is not an error. -/
def osDeleteDoc (idx : List (String × IndexDoc)) (key : String) : List (String × IndexDoc) :=
  idx.filter (fun kv => kv.1 ≠ key)

/-- index_item_in_os: every exception of the OpenSearch call (including a `None`
row, whose dict access would raise inside the `try`) is caught and logged, so
on failure the index is simply left unchanged and no error propagates. -/
def index_item_in_os (env : Env) (idx : List (String × IndexDoc)) (itemId : Nat)
    (item : Option ItemRow) : List (String × IndexDoc) :=
  match item with
  | none => idx
  | some it => if env.indexOk then osUpsert idx (toString itemId) (docOfItem it) else idx

/-- GET /auth/register: when a user already exists, only an authenticated admin
sees the form; everyone else is redirected to the login page. -/
def register_form (s : AppState) (sessionUid : Option Nat) : Response :=
  if s.store.users.length > 0 then
    match currentUser s.store sessionUid with
    | some u => if u.isAdmin then Response.template "register.html" 200
                else Response.redirect "/auth/login"
    | none => Response.redirect "/auth/login"
  else Response.template "register.html" 200

/-- POST /auth/register (register_submit).  Mirrors the source exactly: the
handler never consults the session, counts the users, grants admin only to the
first account, treats a duplicate username as a 400 form error, inserts the
user and upserts the profile, and redirects to the login page.  The
`sessionUid` argument is deliberately unused, as the handler itself ignores the
caller's identity. -/
def register_submit (env : Env) (s : AppState) (sessionUid : Option Nat)
    (username password name : String) : AppState × Response :=
  let _ := sessionUid
  let pwd := env.hashPw password
  let count := s.store.users.length
  let isAdminFlag := count == 0
  if s.store.users.any (fun u => u.username == username) then
    (s, Response.template "register.html" 400)
  else
    let uid := s.store.nextUserId
    let user : UserRow :=
      { id := uid, username := username, passwordHash := pwd, isAdmin := isAdminFlag,
        isActive := true, createdAt := env.now }
    let prof : ProfileRow := { userId := uid, name := name, updatedAt := env.now }
    let store' :=
      { s.store with
        users := s.store.users ++ [user],
        profiles := prof :: s.store.profiles.filter (fun p => p.userId ≠ uid),
        nextUserId := uid + 1 }
    ({ s with store := store' }, Response.redirect "/auth/login")

/-- Per-label occurrence count of the dashboard histogram: each token occurrence
equal to `l` increments `label_counts[l]`. -/
def labelCount (items : List ItemRow) (l : String) : Nat :=
  (items.map (fun it => (tagTokens it.tags).count l)).sum

/-- The number of an item's tag-token occurrences that are allowed labels. -/
def itemMatchCount (it : ItemRow) : Nat :=
  (tagTokens it.tags).countP (fun t => decide (t ∈ ALLOWED_LABELS))

/-- The "Unlabeled" bucket: items with no tokens at all, and items none of whose
tokens is an allowed label, each count once. -/
def unlabeledCount (items : List ItemRow) : Nat :=
  items.countP (fun it => itemMatchCount it == 0)

/-- The pie-chart arrays of compute_dashboard_stats: a synthetic ("No data", 1)
bucket when the total is zero, otherwise the per-label counts followed by an
"Unlabeled" bucket when it is nonzero. -/
def pieData (items : List ItemRow) : List String × List Nat :=
  let counts := ALLOWED_LABELS.map (labelCount items)
  let unl := unlabeledCount items
  let total := counts.sum + unl
  if total == 0 then (["No data"], [1])
  else (ALLOWED_LABELS ++ (if unl ≠ 0 then ["Unlabeled"] else []),
        counts ++ (if unl ≠ 0 then [unl] else []))

/-- The number of items created on day `d`. -/
def dayCount (items : List ItemRow) (d : Int) : Nat :=
  items.countP (fun it => it.createdDay == d)

/-- The value `day_map[d]` reads after the grouped query: the SQL counts items
grouped by creation date restricted to `[minD, maxD]`; a date with no row keeps
the zero the map was initialized with, and a date with no items produces no
row, so the range-restricted count with default zero is exactly this. -/
def dayMapVal (items : List ItemRow) (minD maxD d : Int) : Nat :=
  if minD ≤ d ∧ d ≤ maxD then dayCount items d else 0

/-- The line chart of compute_dashboard_stats: the 5 trailing days as labels and
`[day_map[d] for d in days]` as values (`min_d, max_d = days[0], days[-1]`). -/
def compute_line (items : List ItemRow) (today : Int) : List Int × List Nat :=
  let days := get_last_n_days 5 today
  let minD := days.headD 0
  let maxD := days.getLastD 0
  (days, days.map (dayMapVal items minD maxD))

/-- The row the INSERT of create_item produces (the id is the next
AUTOINCREMENT value). -/
def mkCreatedRow (env : Env) (s : AppState) (u : UserRow)
    (title start_time end_time description : String) (labels : List String) : ItemRow :=
  { id := s.store.nextItemId, title := title, description := description,
    tags := commaJoin (keptLabels labels), createdAt := env.now, createdDay := env.todayOrd,
    author := authorNameFor s.store u, authorUserId := some u.id,
    startTime := start_time, endTime := end_time }

/-- POST /data/new (create_item): resolve the user, snapshot the author name,
filter the labels to the allowed enumeration, parse and validate the time
window, insert the row inside the transaction, read it back, commit, and only
then attempt the index upsert; the success redirect is returned whether or not
the upsert succeeded. -/
def create_item (env : Env) (s : AppState) (sessionUid : Option Nat)
    (title start_time end_time description : String) (labels : List String) :
    AppState × Response :=
  match currentUser s.store sessionUid with
  | none => (s, Response.redirect "/auth/login")
  | some u =>
    match env.parseDT start_time with
    | none => (s, Response.httpError 400 "Invalid datetime for start_time")
    | some sdt =>
      match env.parseDT end_time with
      | none => (s, Response.httpError 400 "Invalid datetime for end_time")
      | some edt =>
        if edt < sdt then (s, Response.template "new.html" 400)
        else
          let itemId := s.store.nextItemId
          let row := mkCreatedRow env s u title start_time end_time description labels
          let store' := { s.store with items := s.store.items ++ [row], nextItemId := itemId + 1 }
          let readBack := store'.items.find? (fun it => it.id == itemId)
          let index' := index_item_in_os env s.index itemId readBack
          ({ store := store', index := index' }, Response.redirect ("/data/" ++ toString itemId))

/-- The effect of edit_item_submit's UPDATE on the matching row. -/
def applyEdit (it : ItemRow) (title start_time end_time description : String)
    (labels : List String) : ItemRow :=
  { it with
    title := title, description := description,
    tags := commaJoin (keptLabels labels), startTime := start_time, endTime := end_time }

/-- POST /data/{id}/edit (edit_item_submit): admin-only; same validation as
create, then UPDATE inside the transaction, read-back, commit, best-effort
index upsert, success redirect. -/
def edit_item_submit (env : Env) (s : AppState) (sessionUid : Option Nat) (itemId : Nat)
    (title start_time end_time description : String) (labels : List String) :
    AppState × Response :=
  match currentUser s.store sessionUid with
  | none => (s, Response.redirect "/auth/login")
  | some u =>
    if !u.isAdmin then (s, Response.redirect "/auth/login")
    else
      match env.parseDT start_time with
      | none => (s, Response.httpError 400 "Invalid datetime for start_time")
      | some sdt =>
        match env.parseDT end_time with
        | none => (s, Response.httpError 400 "Invalid datetime for end_time")
        | some edt =>
          if edt < sdt then (s, Response.template "edit.html" 400)
          else
            let items' := s.store.items.map (fun it =>
              if it.id == itemId then applyEdit it title start_time end_time description labels
              else it)
            let store' := { s.store with items := items' }
            let readBack := store'.items.find? (fun it => it.id == itemId)
            let index' := index_item_in_os env s.index itemId readBack
            ({ store := store', index := index' }, Response.redirect ("/data/" ++ toString itemId))

/-- POST /data/{id}/delete (delete_item): 404 when the item is missing, 403 when
the caller is neither admin nor owner (`u["id"] == owner` is false when the
owner column is NULL), otherwise delete the item row and its comments in one
transaction, commit, then best-effort index delete (absence ignored via
`ignore=[404]`, any other failure swallowed), and redirect. -/
def delete_item (env : Env) (s : AppState) (sessionUid : Option Nat) (itemId : Nat) :
    AppState × Response :=
  match currentUser s.store sessionUid with
  | none => (s, Response.redirect "/auth/login")
  | some u =>
    match s.store.items.find? (fun it => it.id == itemId) with
    | none => (s, Response.httpError 404 "Not found")
    | some row =>
      if !(u.isAdmin || row.authorUserId == some u.id) then
        (s, Response.httpError 403 "Not allowed")
      else
        let store' :=
          { s.store with
            items := s.store.items.filter (fun it => it.id ≠ itemId),
            comments := s.store.comments.filter (fun c => c.itemId ≠ itemId) }
        let index' := if env.indexOk then osDeleteDoc s.index (toString itemId) else s.index
        ({ store := store', index := index' }, Response.redirect "/data")

/-- POST /data/{id}/comment (add_comment): resolve the user and insert the
comment row; the handler performs no lookup of the target item. -/
def add_comment (env : Env) (s : AppState) (sessionUid : Option Nat) (itemId : Nat)
    (content : String) : AppState × Response :=
  match currentUser s.store sessionUid with
  | none => (s, Response.redirect "/auth/login")
  | some u =>
    let c : CommentRow :=
      { id := s.store.nextCommentId, itemId := itemId, userId := u.id,
        content := content, createdAt := env.now }
    let store' := { s.store with
                    comments := s.store.comments ++ [c],
                    nextCommentId := s.store.nextCommentId + 1 }
    ({ s with store := store' }, Response.redirect ("/data/" ++ toString itemId))

/-- Python `label.capitalize()`: first character upper-cased, the rest
lowered (modelled directly on the character list). -/
def pyCapitalize (s : String) : String :=
  match s.data with
  | [] => ""
  | c :: cs => String.mk (c.toUpper :: cs.map Char.toLower)

/-- normalize_label: capitalize, 404 (`none`) when the result is not an allowed label. -/
def normalize_label (label : String) : Option String :=
  let cap := pyCapitalize label
  if cap ∈ ALLOWED_LABELS then some cap else none

/-- The SQL filter `','||tags||',' LIKE '%,label,%'`: the delimiter-wrapped
label occurs as a substring of the delimiter-wrapped tag string.  (For the
fixed, exactly-cased label vocabulary produced by the writers, SQLite's
ASCII-case-insensitive LIKE coincides with this case-sensitive containment.) -/
def likeTagMatch (tags label : String) : Prop :=
  (',' :: label.data ++ [',']) <:+: (',' :: tags.data ++ [','])

instance (tags label : String) : Decidable (likeTagMatch tags label) :=
  List.decidableInfix _ _

/-- `ORDER BY id DESC` on a result set (ids are unique, so any sorted
permutation is the SQL answer). -/
def sortByIdDesc (xs : List ItemRow) : List ItemRow :=
  xs.insertionSort (fun a b => b.id ≤ a.id)

/-- GET /module/{label} (module_page): 404 for an unknown label, otherwise the
rows whose wrapped tag string contains the wrapped label, most recent first. -/
def module_page (s : AppState) (label : String) : Except Nat (List ItemRow) :=
  match normalize_label label with
  | none => Except.error 404
  | some cap =>
    Except.ok (sortByIdDesc (s.store.items.filter (fun it => decide (likeTagMatch it.tags cap))))

/-- One row of the search results table (tags re-joined with ", "). -/
structure SearchHit where
  id : String
  title : String
  tags : String
  createdAt : String
  deriving Repr, DecidableEq

/-- What the rendered search page receives: the echoed query, the hit list, the
optional inline error, plus (for specification purposes) whether the backend
was contacted at all. -/
structure SearchPage where
  q : String
  results : List SearchHit
  error : Option String
  backendCalled : Bool
  deriving Repr, DecidableEq

/-- Mapping an index hit back to a display record. -/
def hitOfDoc (key : String) (d : IndexDoc) : SearchHit :=
  { id := key, title := d.title, tags := String.intercalate ", " d.tags, createdAt := d.createdAt }

/-- GET /search: a falsy query (absent or empty) yields no results and no error
without touching the backend; otherwise the backend's answer is mapped to hits,
and any exception is caught and surfaced as the inline error string next to an
empty result list.  The function is total: the page always renders. -/
def search (backend : Except String (List (String × IndexDoc))) (q : Option String) :
    SearchPage :=
  match q with
  | none => { q := "", results := [], error := none, backendCalled := false }
  | some qs =>
    if qs = "" then { q := qs, results := [], error := none, backendCalled := false }
    else
      match backend with
      | Except.ok hits =>
        { q := qs, results := hits.map (fun kv => hitOfDoc kv.1 kv.2),
          error := none, backendCalled := true }
      | Except.error e =>
        { q := qs, results := [], error := some e, backendCalled := true }

/-! Concrete fixtures used by the witness and counterexample theorems. -/

/-- A concrete environment: "lo" parses to 0, "hi" to 10, anything else raises. -/
def sampleEnv : Env :=
  { parseDT := fun s => if s = "lo" then some 0 else if s = "hi" then some 10 else none,
    hashPw := fun p => p, now := "2024-01-02T00:00:00", todayOrd := 101, indexOk := true }

/-- An active admin account. -/
def adminUser : UserRow :=
  { id := 1, username := "alice", passwordHash := "h", isAdmin := true, isActive := true,
    createdAt := "2024-01-01T00:00:00" }

/-- An active non-admin account. -/
def plainUser : UserRow :=
  { id := 2, username := "bob", passwordHash := "h", isAdmin := false, isActive := true,
    createdAt := "2024-01-01T00:00:00" }

/-- An item owned by the admin account, labelled Recon. -/
def sampleItem : ItemRow :=
  { id := 1, title := "Patrol A", description := "", tags := "Recon",
    createdAt := "2024-01-01T08:30:00", createdDay := 100, author := "alice",
    authorUserId := some 1, startTime := "lo", endTime := "hi" }

/-- A comment on the sample item. -/
def sampleComment : CommentRow :=
  { id := 1, itemId := 1, userId := 2, content := "ok", createdAt := "2024-01-01T09:00:00" }

/-- A populated store: one item, two users, one comment. -/
def sampleStore : Store :=
  { items := [sampleItem], users := [adminUser, plainUser], profiles := [],
    comments := [sampleComment], nextItemId := 2, nextUserId := 3, nextCommentId := 2 }

/-- The populated application state, with the sample item already indexed. -/
def sampleState : AppState :=
  { store := sampleStore, index := [("1", docOfItem sampleItem)] }

/-- A state in which exactly one user (the admin) exists. -/
def oneUserState : AppState :=
  { store := { items := [], users := [adminUser], profiles := [], comments := [],
               nextItemId := 1, nextUserId := 2, nextCommentId := 1 },
    index := [] }

/-- The pristine state: no rows at all. -/
def emptyState : AppState :=
  { store := { items := [], users := [], profiles := [], comments := [],
               nextItemId := 1, nextUserId := 1, nextCommentId := 1 },
    index := [] }

/-- An item carrying two allowed labels (for the histogram counterexample). -/
def twoLabelItem : ItemRow :=
  { id := 1, title := "x", description := "", tags := "Recon,Mission",
    createdAt := "2024-01-01T00:00:00", createdDay := 0, author := "a",
    authorUserId := none, startTime := "lo", endTime := "hi" }



/-- Claim C9: for every non-empty search query, a failure of the external
search backend is caught and rendered as a non-fatal error message together
with an empty result list (the page still renders, since `search` is total);
an empty or absent query returns no results and no error without contacting
the backend. -/
theorem C9_search_error_handling (backend : Except String (List (String × IndexDoc)))
    (q : Option String) :
    ((q = none ∨ q = some "") →
      search backend q = { q := "", results := [], error := none, backendCalled := false }) ∧
    (∀ qs e, q = some qs → qs ≠ "" → backend = Except.error e →
      search backend q = { q := qs, results := [], error := some e, backendCalled := true }) := by
  constructor
  · rintro (rfl | rfl) <;> simp [search]
  · rintro qs e rfl hq rfl
    simp [search, hq]

/-- Witness for C9 at concrete inputs: a failing backend with query "q" yields
the inline error and empty results; an absent query stays offline. -/
theorem C9_search_error_handling_witness :
    search (Except.error "boom") (some "q")
      = { q := "q", results := [], error := some "boom", backendCalled := true } ∧
    search (Except.error "boom") none
      = { q := "", results := [], error := none, backendCalled := false } :=
  ⟨(C9_search_error_handling (Except.error "boom") (some "q")).2 "q" "boom" rfl (by decide) rfl,
   (C9_search_error_handling (Except.error "boom") none).1 (Or.inl rfl)⟩

/-- Claim C10: add_comment performs no existence check on the target item: for
every authenticated caller and every item id (no hypothesis connects `itemId`
to the items table), the insert succeeds, the success redirect is returned, and
the items table is untouched. -/
theorem C10_comment_without_item_check (env : Env) (s : AppState) (uid : Option Nat)
    (u : UserRow) (itemId : Nat) (content : String)
    (hu : currentUser s.store uid = some u) :
    (add_comment env s uid itemId content).2 = Response.redirect ("/data/" ++ toString itemId) ∧
    ({ id := s.store.nextCommentId, itemId := itemId, userId := u.id, content := content,
       createdAt := env.now : CommentRow } ∈ (add_comment env s uid itemId content).1.store.comments) ∧
    (add_comment env s uid itemId content).1.store.items = s.store.items := by
  simp [add_comment, hu]

/-- Witness for C10: commenting on the nonexistent item id 999 in the sample
state succeeds and returns the redirect. -/
theorem C10_comment_without_item_check_witness :
    (add_comment sampleEnv sampleState (some 2) 999 "hello").2
      = Response.redirect ("/data/" ++ toString 999) ∧
    ({ id := sampleState.store.nextCommentId, itemId := 999, userId := plainUser.id,
       content := "hello", createdAt := sampleEnv.now : CommentRow }
       ∈ (add_comment sampleEnv sampleState (some 2) 999 "hello").1.store.comments) ∧
    (add_comment sampleEnv sampleState (some 2) 999 "hello").1.store.items
      = sampleState.store.items :=
  C10_comment_without_item_check sampleEnv sampleState (some 2) plainUser 999 "hello" (by decide)

/-- Claim C2 (code-bug evaluation): the first-ever registration does receive
the admin flag, but once a user exists an unauthenticated POST /auth/register
with a fresh username still inserts a (non-admin) user row and returns the
redirect: register_submit never consults the session. -/
theorem C2_register_submit_behavior :
    (register_submit sampleEnv emptyState none "alice" "pw" "Alice").1.store.users.length = 1 ∧
    (∀ u ∈ (register_submit sampleEnv emptyState none "alice" "pw" "Alice").1.store.users,
       u.isAdmin = true) ∧
    currentUser oneUserState.store none = none ∧
    (register_submit sampleEnv oneUserState none "mallory" "pw" "Mallory").1.store.users.length = 2 ∧
    (∃ u ∈ (register_submit sampleEnv oneUserState none "mallory" "pw" "Mallory").1.store.users,
       u.username = "mallory" ∧ u.isAdmin = false) ∧
    (register_submit sampleEnv oneUserState none "mallory" "pw" "Mallory").2
      = Response.redirect "/auth/login" := by
  decide

/-- Claim C4: when the parsed end time is strictly before the parsed start
time, create and edit return the 400-status form re-render and leave the state
(in particular the items table) completely unchanged. -/
theorem C4_end_before_start_no_mutation (env : Env) (s : AppState) (uid : Option Nat)
    (u : UserRow) (itemId : Nat) (title st et d : String) (labels : List String)
    (sdt edt : Int)
    (hs : env.parseDT st = some sdt) (he : env.parseDT et = some edt) (hlt : edt < sdt) :
    (currentUser s.store uid = some u →
       create_item env s uid title st et d labels = (s, Response.template "new.html" 400)) ∧
    (currentUser s.store uid = some u → u.isAdmin = true →
       edit_item_submit env s uid itemId title st et d labels
         = (s, Response.template "edit.html" 400)) := by
  constructor
  · intro hu
    simp [create_item, hu, hs, he, hlt]
  · intro hu ha
    simp [edit_item_submit, hu, ha, hs, he, hlt]

/-- Witness for C4: with the sample environment "hi" parses to 10 and "lo" to
0, so a window ending before it starts is rejected with no mutation. -/
theorem C4_end_before_start_no_mutation_witness :
    create_item sampleEnv sampleState (some 1) "T" "hi" "lo" "" []
      = (sampleState, Response.template "new.html" 400) ∧
    edit_item_submit sampleEnv sampleState (some 1) 1 "T" "hi" "lo" "" []
      = (sampleState, Response.template "edit.html" 400) :=
  ⟨(C4_end_before_start_no_mutation sampleEnv sampleState (some 1) adminUser 1 "T" "hi" "lo" ""
      [] 10 0 (by decide) (by decide) (by decide)).1 (by decide),
   (C4_end_before_start_no_mutation sampleEnv sampleState (some 1) adminUser 1 "T" "hi" "lo" ""
      [] 10 0 (by decide) (by decide) (by decide)).2 (by decide) (by decide)⟩

/-- Claim C6: an authenticated caller who is neither admin nor owner gets a 403
and the state (items and comments included) is unchanged; the owner or any
admin succeeds, removing the item. -/
theorem C6_delete_requires_owner_or_admin (env : Env) (s : AppState) (uid : Option Nat)
    (u : UserRow) (itemId : Nat) (row : ItemRow)
    (hu : currentUser s.store uid = some u)
    (hrow : s.store.items.find? (fun it => it.id == itemId) = some row) :
    (u.isAdmin = false → row.authorUserId ≠ some u.id →
       delete_item env s uid itemId = (s, Response.httpError 403 "Not allowed")) ∧
    ((u.isAdmin = true ∨ row.authorUserId = some u.id) →
       (delete_item env s uid itemId).2 = Response.redirect "/data" ∧
       (∀ it ∈ (delete_item env s uid itemId).1.store.items, it.id ≠ itemId) ∧
       (∀ c ∈ (delete_item env s uid itemId).1.store.comments, c.itemId ≠ itemId)) := by
  constructor
  · intro h1 h2
    simp [delete_item, hu, hrow, h1, h2]
  · intro hauth
    have hguard : (u.isAdmin || row.authorUserId == some u.id) = true := by
      rcases hauth with h | h <;> simp [h]
    simp [delete_item, hu, hrow, hguard, List.mem_filter]

/-- Witness for C6: the non-admin non-owner "bob" is refused with a 403 and no
change; the admin succeeds with the redirect. -/
theorem C6_delete_requires_owner_or_admin_witness :
    delete_item sampleEnv sampleState (some 2) 1
      = (sampleState, Response.httpError 403 "Not allowed") ∧
    (delete_item sampleEnv sampleState (some 1) 1).2 = Response.redirect "/data" :=
  ⟨(C6_delete_requires_owner_or_admin sampleEnv sampleState (some 2) plainUser 1 sampleItem
      (by decide) (by decide)).1 (by decide) (by decide),
   ((C6_delete_requires_owner_or_admin sampleEnv sampleState (some 1) adminUser 1 sampleItem
      (by decide) (by decide)).2 (Or.inl (by decide))).1⟩

/-- Claim C5: an authorized delete removes the item row and every comment row
referencing it; the committed store result and the user-facing response do not
depend on whether the index call succeeds; when it does succeed it is exactly
the document removal keyed by the item id, and that removal is idempotent (a
second delete of the same key, or a delete when the document is absent, is a
no-op rather than an error). -/
theorem C5_delete_cascade_and_index (env : Env) (s : AppState) (uid : Option Nat)
    (u : UserRow) (itemId : Nat) (row : ItemRow)
    (hu : currentUser s.store uid = some u)
    (hrow : s.store.items.find? (fun it => it.id == itemId) = some row)
    (hauth : u.isAdmin = true ∨ row.authorUserId = some u.id) :
    (∀ it ∈ (delete_item env s uid itemId).1.store.items, it.id ≠ itemId) ∧
    (∀ c ∈ (delete_item env s uid itemId).1.store.comments, c.itemId ≠ itemId) ∧
    (delete_item env s uid itemId).2 = Response.redirect "/data" ∧
    (∀ b : Bool,
       (delete_item { env with indexOk := b } s uid itemId).1.store
         = (delete_item env s uid itemId).1.store ∧
       (delete_item { env with indexOk := b } s uid itemId).2
         = (delete_item env s uid itemId).2) ∧
    (delete_item { env with indexOk := true } s uid itemId).1.index
      = osDeleteDoc s.index (toString itemId) ∧
    osDeleteDoc (osDeleteDoc s.index (toString itemId)) (toString itemId)
      = osDeleteDoc s.index (toString itemId) := by
  have hguard : (u.isAdmin || row.authorUserId == some u.id) = true := by
    rcases hauth with h | h <;> simp [h]
  refine ⟨?_, ?_, ?_, ?_, ?_, ?_⟩
  · simp [delete_item, hu, hrow, hguard, List.mem_filter]
  · simp [delete_item, hu, hrow, hguard, List.mem_filter]
  · simp [delete_item, hu, hrow, hguard]
  · intro b
    constructor <;> simp [delete_item, hu, hrow, hguard]
  · simp [delete_item, hu, hrow, hguard]
  · simp [osDeleteDoc, List.filter_filter]

/-- Witness for C5: the admin deletes the sample item; its comment disappears
with it and the index entry "1" is removed. -/
theorem C5_delete_cascade_and_index_witness :
    (∀ it ∈ (delete_item sampleEnv sampleState (some 1) 1).1.store.items, it.id ≠ 1) ∧
    (∀ c ∈ (delete_item sampleEnv sampleState (some 1) 1).1.store.comments, c.itemId ≠ 1) ∧
    (delete_item sampleEnv sampleState (some 1) 1).2 = Response.redirect "/data" :=
  let h := C5_delete_cascade_and_index sampleEnv sampleState (some 1) adminUser 1 sampleItem
    (by decide) (by decide) (Or.inl (by decide))
  ⟨h.1, h.2.1, h.2.2.1⟩

/-- Appending a fresh-id row and looking it up by that id finds exactly it. -/
theorem find?_append_fresh (its : List ItemRow) (row : ItemRow) (k : Nat)
    (h : ∀ it ∈ its, it.id ≠ k) (hr : row.id = k) :
    (its ++ [row]).find? (fun it => it.id == k) = some row := by
  induction its with
  | nil => simp [List.find?, hr]
  | cons it its ih =>
    have hne : (it.id == k) = false := by
      simp [h it (List.mem_cons_self it its)]
    simp only [List.cons_append, List.find?_cons, hne]
    exact ih fun x hx => h x (List.mem_cons_of_mem _ hx)

/-- `find?` commutes with a map that does not change the predicate's verdict. -/
theorem find?_map_of_pred (g : ItemRow → ItemRow) (p : ItemRow → Bool) (l : List ItemRow)
    (h : ∀ it, p (g it) = p it) : (l.map g).find? p = (l.find? p).map g := by
  induction l with
  | nil => rfl
  | cons a l ih =>
    by_cases ha : p a = true
    · simp [List.find?_cons, h a, ha]
    · have ha' : p a = false := by simpa using ha
      simp [List.find?_cons, h a, ha', ih]

/-- Claim C1: for a successful create or edit, the committed store and the
success redirect are identical whether the index upsert succeeds or fails (the
upsert can neither roll back the commit nor fail the request); the written row
is readable from the committed store; and the document the upsert receives is
built from the row read back after the store write. -/
theorem C1_store_ahead_of_index (env : Env) (s : AppState) (uid : Option Nat)
    (u : UserRow) (itemId : Nat) (title st et d : String) (labels : List String)
    (sdt edt : Int)
    (hu : currentUser s.store uid = some u)
    (hs : env.parseDT st = some sdt) (he : env.parseDT et = some edt) (hok : ¬ edt < sdt) :
    (∀ b : Bool,
       (create_item { env with indexOk := b } s uid title st et d labels).1.store
         = (create_item env s uid title st et d labels).1.store ∧
       (create_item { env with indexOk := b } s uid title st et d labels).2
         = Response.redirect ("/data/" ++ toString s.store.nextItemId)) ∧
    (mkCreatedRow env s u title st et d labels
       ∈ (create_item env s uid title st et d labels).1.store.items) ∧
    ((∀ it ∈ s.store.items, it.id ≠ s.store.nextItemId) →
       (create_item { env with indexOk := true } s uid title st et d labels).1.index
         = osUpsert s.index (toString s.store.nextItemId)
             (docOfItem (mkCreatedRow env s u title st et d labels))) ∧
    (u.isAdmin = true →
       (∀ b : Bool,
          (edit_item_submit { env with indexOk := b } s uid itemId title st et d labels).1.store
            = (edit_item_submit env s uid itemId title st et d labels).1.store ∧
          (edit_item_submit { env with indexOk := b } s uid itemId title st et d labels).2
            = Response.redirect ("/data/" ++ toString itemId)) ∧
       (∀ row, s.store.items.find? (fun it => it.id == itemId) = some row →
          applyEdit row title st et d labels
            ∈ (edit_item_submit env s uid itemId title st et d labels).1.store.items ∧
          (edit_item_submit { env with indexOk := true } s uid itemId title st et d labels).1.index
            = osUpsert s.index (toString itemId)
                (docOfItem (applyEdit row title st et d labels)))) := by
  refine ⟨?_, ?_, ?_, ?_⟩
  · intro b
    refine ⟨?_, ?_⟩ <;> simp [create_item, hu, hs, he, hok, mkCreatedRow]
  · simp [create_item, hu, hs, he, hok]
  · intro hfresh
    have h1 : s.store.items.find? (fun it => it.id == s.store.nextItemId) = none :=
      List.find?_eq_none.mpr fun x hx => by simp [hfresh x hx]
    simp [create_item, hu, hs, he, hok, index_item_in_os, h1, mkCreatedRow]
  · intro ha
    have hedit : ∀ (e2 : Env), e2.parseDT st = some sdt → e2.parseDT et = some edt →
        edit_item_submit e2 s uid itemId title st et d labels
          = ({ store := { s.store with items := s.store.items.map (fun it =>
                 if it.id == itemId then applyEdit it title st et d labels else it) },
               index := index_item_in_os e2 s.index itemId
                 ((s.store.items.map (fun it =>
                   if it.id == itemId then applyEdit it title st et d labels else it)).find?
                   (fun it => it.id == itemId)) },
             Response.redirect ("/data/" ++ toString itemId)) := by
      intro e2 hs2 he2
      simp [edit_item_submit, hu, ha, hs2, he2, hok]
    refine ⟨?_, ?_⟩
    · intro b
      refine ⟨?_, ?_⟩
      · rw [hedit { env with indexOk := b } (by simpa using hs) (by simpa using he),
            hedit env hs he]
      · rw [hedit { env with indexOk := b } (by simpa using hs) (by simpa using he)]
    · intro row hrow
      have hid : row.id = itemId := by simpa using List.find?_some hrow
      have hg : ∀ it : ItemRow,
          ((if it.id == itemId then applyEdit it title st et d labels else it).id == itemId)
            = (it.id == itemId) := by
        intro it
        by_cases hc : it.id = itemId
        · simp [hc, applyEdit]
        · simp [hc, applyEdit]
      have hfind : (s.store.items.map (fun it =>
          if it.id == itemId then applyEdit it title st et d labels else it)).find?
            (fun it => it.id == itemId) = some (applyEdit row title st et d labels) := by
        rw [find?_map_of_pred _ _ _ hg, hrow]
        simp [hid]
      constructor
      · rw [hedit env hs he]
        have hmem : row ∈ s.store.items := List.mem_of_find?_eq_some hrow
        have hfr : applyEdit row title st et d labels
            = (fun it => if it.id == itemId then applyEdit it title st et d labels else it) row := by
          simp [hid]
        rw [hfr]
        exact List.mem_map_of_mem _ hmem
      · rw [hedit { env with indexOk := true } (by simpa using hs) (by simpa using he)]
        simp only [hfind, index_item_in_os]
        simp

/-- Witness for C1: the admin creates an item in the sample state (ids are
fresh) and edits item 1; both succeed with the index down as well as up. -/
theorem C1_store_ahead_of_index_witness :
    (create_item { sampleEnv with indexOk := false } sampleState (some 1) "T" "lo" "hi" ""
        ["Recon"]).2 = Response.redirect ("/data/" ++ toString sampleState.store.nextItemId) ∧
    (mkCreatedRow sampleEnv sampleState adminUser "T" "lo" "hi" "" ["Recon"]
       ∈ (create_item sampleEnv sampleState (some 1) "T" "lo" "hi" "" ["Recon"]).1.store.items) ∧
    (create_item { sampleEnv with indexOk := true } sampleState (some 1) "T" "lo" "hi" ""
        ["Recon"]).1.index
      = osUpsert sampleState.index (toString sampleState.store.nextItemId)
          (docOfItem (mkCreatedRow sampleEnv sampleState adminUser "T" "lo" "hi" "" ["Recon"])) ∧
    (applyEdit sampleItem "T2" "lo" "hi" "" ["Notice"]
       ∈ (edit_item_submit sampleEnv sampleState (some 1) 1 "T2" "lo" "hi" ""
            ["Notice"]).1.store.items) :=
  let h := C1_store_ahead_of_index sampleEnv sampleState (some 1) adminUser 1 "T" "lo" "hi" ""
    ["Recon"] 0 10 (by decide) (by decide) (by decide) (by decide)
  let h2 := C1_store_ahead_of_index sampleEnv sampleState (some 1) adminUser 1 "T2" "lo" "hi" ""
    ["Notice"] 0 10 (by decide) (by decide) (by decide) (by decide)
  ⟨(h.1 false).2, h.2.1, h.2.2.1 (by decide),
   ((h2.2.2.2 (by decide)).2 sampleItem (by decide)).1⟩

/-- Claim C7: the dashboard daily series always covers exactly today and the 4
prior days in ascending (oldest to newest) order, its values are the per-day
item counts, and a day with no items has the value zero, for every item set. -/
theorem C7_daily_series (items : List ItemRow) (today : Int) :
    (compute_line items today).1 = [today - 4, today - 3, today - 2, today - 1, today] ∧
    (compute_line items today).1.length = 5 ∧
    List.Chain' (fun a b => a < b) (compute_line items today).1 ∧
    (compute_line items today).2 =
      [dayCount items (today - 4), dayCount items (today - 3), dayCount items (today - 2),
       dayCount items (today - 1), dayCount items today] ∧
    (∀ e, (∀ it ∈ items, it.createdDay ≠ e) → dayCount items e = 0) := by
  have hdays : get_last_n_days 5 today = [today - 4, today - 3, today - 2, today - 1, today] := by
    simp only [get_last_n_days, (by decide : List.range 5 = [0, 1, 2, 3, 4]), List.map,
      List.cons.injEq, and_true]
    norm_num
  refine ⟨?_, ?_, ?_, ?_, ?_⟩
  · simp [compute_line, hdays]
  · simp [compute_line, hdays]
  · simp only [compute_line, hdays]
    simp [List.chain'_cons]
  · simp only [compute_line]
    rw [hdays]
    have h1 : ([today - 4, today - 3, today - 2, today - 1, today] : List Int).headD 0
        = today - 4 := rfl
    have h2 : ([today - 4, today - 3, today - 2, today - 1, today] : List Int).getLastD 0
        = today := rfl
    rw [h1, h2]
    simp only [List.map, dayMapVal, List.cons.injEq, and_true]
    refine ⟨?_, ?_, ?_, ?_, ?_⟩ <;> · rw [if_pos (by omega)]
  · intro e he
    rw [dayCount, List.countP_eq_zero]
    intro it hit
    simpa using he it hit

/-- Witness for C7 at the empty store and day 0: the series is the five days
ending at 0, all values are the (zero) day counts, and day 7 counts zero. -/
theorem C7_daily_series_witness :
    (compute_line [] (0 : Int)).1 = [-4, -3, -2, -1, 0] ∧
    (compute_line [] (0 : Int)).2
      = [dayCount [] (-4), dayCount [] (-3), dayCount [] (-2), dayCount [] (-1), dayCount [] 0] ∧
    dayCount [] 7 = 0 := by
  have h := C7_daily_series [] 0
  exact ⟨by simpa using h.1, by simpa using h.2.2.2.1, h.2.2.2.2 7 (by simp)⟩

/-- Summing a pointwise sum of two functions over a list splits. -/
theorem sum_map_add {α : Type} (L : List α) (f g : α → Nat) :
    (L.map (fun x => f x + g x)).sum = (L.map f).sum + (L.map g).sum := by
  induction L with
  | nil => rfl
  | cons a L ih =>
    simp only [List.map, List.sum_cons, ih]
    omega

/-- Over a duplicate-free list, summing the indicator of equality with `t`
yields the membership indicator. -/
theorem sum_indicator_eq_mem (t : String) (L : List String) (hL : L.Nodup) :
    (L.map (fun l => if (t == l) = true then 1 else 0)).sum = if t ∈ L then 1 else 0 := by
  induction L with
  | nil => simp
  | cons a L ih =>
    obtain ⟨hna, hnd⟩ := List.nodup_cons.mp hL
    have ih' := ih hnd
    simp only [beq_iff_eq] at ih' ⊢
    by_cases h : t = a
    · subst h
      simp [ih', hna]
    · simp [ih', h]

/-- Per token list: the per-allowed-label occurrence counts sum to the number
of allowed-label token occurrences. -/
theorem sum_counts_eq_countP (tks : List String) :
    (ALLOWED_LABELS.map (fun l => tks.count l)).sum
      = tks.countP (fun t => decide (t ∈ ALLOWED_LABELS)) := by
  induction tks with
  | nil => simp
  | cons tk tks ih =>
    have hstep : ALLOWED_LABELS.map (fun l => (tk :: tks).count l)
        = ALLOWED_LABELS.map (fun l => tks.count l + (if (tk == l) = true then 1 else 0)) :=
      List.map_congr_left fun l _ => by rw [List.count_cons]
    rw [hstep, sum_map_add, ih, sum_indicator_eq_mem tk ALLOWED_LABELS (by decide),
      List.countP_cons]
    by_cases h : tk ∈ ALLOWED_LABELS <;> simp [h]

/-- The histogram identity: label-count total plus the Unlabeled bucket equals
the sum over items of their allowed-token occurrence count, floored at one. -/
theorem counts_plus_unlabeled (items : List ItemRow) :
    (ALLOWED_LABELS.map (labelCount items)).sum + unlabeledCount items
      = (items.map (fun it => max (itemMatchCount it) 1)).sum := by
  induction items with
  | nil => decide
  | cons it its ih =>
    have hl : ALLOWED_LABELS.map (labelCount (it :: its))
        = ALLOWED_LABELS.map (fun l => (tagTokens it.tags).count l + labelCount its l) :=
      List.map_congr_left fun l _ => by simp [labelCount, List.map, List.sum_cons]
    have hm : (ALLOWED_LABELS.map (fun l => (tagTokens it.tags).count l)).sum
        = itemMatchCount it := sum_counts_eq_countP (tagTokens it.tags)
    have hu : unlabeledCount (it :: its)
        = unlabeledCount its + (if itemMatchCount it == 0 then 1 else 0) := by
      simp only [unlabeledCount, List.countP_cons]
    rw [hl, sum_map_add, hm, hu, List.map, List.sum_cons]
    rcases Nat.eq_zero_or_pos (itemMatchCount it) with h0 | hpos
    · simp only [h0] at *
      simp
      omega
    · have hb : (itemMatchCount it == 0) = false := by
        simp [Nat.pos_iff_ne_zero.mp hpos]
      have hmax : max (itemMatchCount it) 1 = itemMatchCount it := Nat.max_eq_left hpos
      rw [hb, hmax]
      simp
      omega

/-- Counterexample to claim C3 as stated: one item carrying the two allowed
labels Recon and Mission contributes to both buckets, so the histogram values
sum to 2 while the store holds 1 item. -/
theorem C3_histogram_counterexample :
    (pieData [twoLabelItem]).2.sum ≠ [twoLabelItem].length ∧
    (ALLOWED_LABELS.map (labelCount [twoLabelItem])).sum + unlabeledCount [twoLabelItem]
      ≠ [twoLabelItem].length := by
  decide

/-- Claim C3, amended: the per-label counts plus the Unlabeled count sum to the
total number of (item, allowed-label-token) contributions — each item counting
once per allowed token occurrence it carries, and once in total when it
carries none — and an empty store yields the single synthetic bucket
("No data", 1). -/
theorem C3_histogram_amended (items : List ItemRow) :
    (items = [] → pieData items = (["No data"], [1])) ∧
    (items ≠ [] →
       (pieData items).2.sum = (items.map (fun it => max (itemMatchCount it) 1)).sum ∧
       (pieData items).2.sum
         = (ALLOWED_LABELS.map (labelCount items)).sum + unlabeledCount items) := by
  constructor
  · rintro rfl
    decide
  · intro hne
    have hkey := counts_plus_unlabeled items
    have hpos : 1 ≤ (items.map (fun it => max (itemMatchCount it) 1)).sum := by
      cases items with
      | nil => exact absurd rfl hne
      | cons a l =>
        simp only [List.map, List.sum_cons]
        exact le_trans (Nat.le_max_right (itemMatchCount a) 1) (Nat.le_add_right _ _)
    have htot : (ALLOWED_LABELS.map (labelCount items)).sum + unlabeledCount items ≠ 0 := by
      omega
    have hvals : (pieData items).2
        = ALLOWED_LABELS.map (labelCount items)
          ++ (if unlabeledCount items ≠ 0 then [unlabeledCount items] else []) := by
      simp only [pieData]
      rw [if_neg (by simpa using htot)]
    have hsum : (pieData items).2.sum
        = (ALLOWED_LABELS.map (labelCount items)).sum + unlabeledCount items := by
      rw [hvals, List.sum_append]
      by_cases hu : unlabeledCount items = 0
      · simp [hu]
      · simp [hu]
    exact ⟨by rw [hsum, hkey], hsum⟩

/-- Witness for the amended C3: the empty store renders the synthetic bucket,
and the two-label item's histogram sums to its two contributions. -/
theorem C3_histogram_amended_witness :
    pieData [] = (["No data"], [1]) ∧
    (pieData [twoLabelItem]).2.sum
      = ([twoLabelItem].map (fun it => max (itemMatchCount it) 1)).sum :=
  ⟨(C3_histogram_amended []).1 rfl,
   ((C3_histogram_amended [twoLabelItem]).2 (by decide)).1⟩

/-- Characters are recovered from string equality of the underlying lists. -/
theorem string_data_injective {a b : String} (h : a.data = b.data) : a = b := by
  cases a
  cases b
  exact congrArg String.mk h

/-- Splitting an equation at a separator occurrence: when the right-hand side's
prefix `t` is separator-free, the left occurrence either coincides with it or
lies strictly beyond it. -/
theorem first_sep_split (sep : Char) :
    ∀ (t u v w : List Char), sep ∉ t → u ++ sep :: v = t ++ sep :: w →
      (u = t ∧ v = w) ∨ ∃ u2, u = t ++ sep :: u2 ∧ w = u2 ++ sep :: v := by
  intro t
  induction t with
  | nil =>
    intro u v w _ h
    cases u with
    | nil =>
      simp only [List.nil_append] at h
      injection h with h1 h2
      exact Or.inl ⟨rfl, h2⟩
    | cons c u2 =>
      simp only [List.cons_append, List.nil_append] at h
      injection h with h1 h2
      subst h1
      exact Or.inr ⟨u2, rfl, h2.symm⟩
  | cons c t2 ih =>
    intro u v w hmem h
    have hcs : sep ≠ c := fun h2 => hmem (by rw [h2]; exact List.mem_cons_self c t2)
    have hmem2 : sep ∉ t2 := fun h2 => hmem (List.mem_cons_of_mem _ h2)
    cases u with
    | nil =>
      simp only [List.nil_append, List.cons_append] at h
      injection h with h1 _
      exact absurd h1 hcs
    | cons d u2 =>
      simp only [List.cons_append] at h
      injection h with h1 h2
      subst h1
      rcases ih u2 v w hmem2 h2 with ⟨h3, h4⟩ | ⟨u3, h3, h4⟩
      · exact Or.inl ⟨by rw [h3], h4⟩
      · exact Or.inr ⟨u3, by rw [h3]; rfl, h4⟩

/-- `commaJoin` viewed at the character level. -/
theorem commaJoin_data (ts : List String) :
    (commaJoin ts).data = charJoin ',' (ts.map String.data) := by
  induction ts with
  | nil => rfl
  | cons t ts ih =>
    cases ts with
    | nil => rfl
    | cons u ts2 =>
      show (t ++ "," ++ commaJoin (u :: ts2)).data
        = t.data ++ ',' :: charJoin ',' ((u :: ts2).map String.data)
      rw [String.data_append, String.data_append, ih]
      simp

/-- The heart of claim C8: for a separator-free nonempty pattern `L` and
separator-free tokens, the delimiter-wrapped pattern occurs inside the
delimiter-wrapped join exactly when `L` is one of the tokens. -/
theorem charJoin_infix_iff (sep : Char) (L : List Char) (hL : L ≠ []) :
    ∀ (ts : List (List Char)), sep ∉ L → (∀ t ∈ ts, sep ∉ t) →
      (((sep :: L ++ [sep]) <:+: (sep :: charJoin sep ts ++ [sep])) ↔ L ∈ ts) := by
  intro ts
  induction ts with
  | nil =>
    intro _ _
    simp only [charJoin, List.not_mem_nil, iff_false]
    rintro ⟨a, b, hab⟩
    have hlen := congrArg List.length hab
    have hL2 : L.length ≠ 0 := fun h0 => hL (List.length_eq_zero.mp h0)
    simp only [List.length_append, List.length_cons, List.length_nil] at hlen
    omega
  | cons t ts ih =>
    intro hLs hts
    have ht : sep ∉ t := hts t (List.mem_cons_self t ts)
    cases ts with
    | nil =>
      simp only [charJoin]
      constructor
      · rintro ⟨a, b, hab⟩
        cases a with
        | nil =>
          simp only [List.nil_append, List.cons_append, List.append_assoc,
            List.singleton_append] at hab
          injection hab with _ h2
          rcases first_sep_split sep t L b [] ht (by simpa using h2)
            with ⟨h3, _⟩ | ⟨u3, h3, _⟩
          · simp [h3]
          · exact (hLs (by rw [h3]; simp)).elim
        | cons c a2 =>
          simp only [List.cons_append, List.append_assoc, List.singleton_append] at hab
          injection hab with _ h2
          rcases first_sep_split sep t a2 (L ++ sep :: b) [] ht (by simpa using h2)
            with ⟨_, h4⟩ | ⟨u3, _, h4⟩
          · exact absurd h4 (by simp)
          · exact absurd h4.symm (by simp)
      · intro hmem
        have hLt : L = t := by simpa using hmem
        subst hLt
        exact ⟨[], [], by simp⟩
    | cons u ts2 =>
      have hwrap : sep :: charJoin sep (t :: u :: ts2) ++ [sep]
          = (sep :: t) ++ (sep :: charJoin sep (u :: ts2) ++ [sep]) := by
        simp [charJoin]
      have ih2 := ih hLs (fun x hx => hts x (List.mem_cons_of_mem _ hx))
      constructor
      · rintro ⟨a, b, hab⟩
        rw [hwrap] at hab
        cases a with
        | nil =>
          simp only [List.nil_append, List.cons_append, List.append_assoc,
            List.singleton_append] at hab
          injection hab with _ h2
          rcases first_sep_split sep t L b (charJoin sep (u :: ts2) ++ [sep]) ht
            (by simpa using h2) with ⟨h3, _⟩ | ⟨u3, h3, _⟩
          · simp [h3]
          · exact (hLs (by rw [h3]; simp)).elim
        | cons c a2 =>
          simp only [List.cons_append, List.append_assoc, List.singleton_append] at hab
          injection hab with _ h2
          rcases first_sep_split sep t a2 (L ++ sep :: b) (charJoin sep (u :: ts2) ++ [sep]) ht
            (by simpa using h2) with ⟨_, h4⟩ | ⟨u3, _, h4⟩
          · have hin : (sep :: L ++ [sep]) <:+: (sep :: charJoin sep (u :: ts2) ++ [sep]) :=
              ⟨[], b, by
                simp only [List.cons_append, List.nil_append, List.append_assoc,
                  List.singleton_append]
                rw [h4]⟩
            exact List.mem_cons_of_mem t (ih2.mp hin)
          · have hin : (sep :: L ++ [sep]) <:+: (sep :: charJoin sep (u :: ts2) ++ [sep]) :=
              ⟨sep :: u3, b, by
                simp only [List.cons_append, List.nil_append, List.append_assoc,
                  List.singleton_append]
                rw [h4]⟩
            exact List.mem_cons_of_mem t (ih2.mp hin)
      · intro hmem
        rcases List.mem_cons.mp hmem with rfl | hmem2
        · exact ⟨[], charJoin sep (u :: ts2) ++ [sep], by rw [hwrap]; simp⟩
        · obtain ⟨a, b, hab⟩ := ih2.mpr hmem2
          exact ⟨(sep :: t) ++ a, b, by rw [hwrap, ← hab]; simp⟩

/-- The SQL LIKE filter on a stored comma-join agrees with exact token
membership, for a nonempty comma-free label and comma-free tokens. -/
theorem likeTagMatch_iff_token (ts : List String) (L : String)
    (hL : L ≠ "") (hLc : ',' ∉ L.data) (hts : ∀ t ∈ ts, ',' ∉ t.data) :
    likeTagMatch (commaJoin ts) L ↔ L ∈ ts := by
  have hLd : L.data ≠ [] := by
    intro h0
    exact hL (string_data_injective (by rw [h0]))
  unfold likeTagMatch
  rw [commaJoin_data]
  rw [charJoin_infix_iff ',' L.data hLd (ts.map String.data) hLc
    (fun x hx => by
      obtain ⟨t, htm, rfl⟩ := List.mem_map.mp hx
      exact hts t htm)]
  constructor
  · intro hx
    obtain ⟨t, htm, hdt⟩ := List.mem_map.mp hx
    rwa [string_data_injective hdt] at htm
  · intro hmem
    exact List.mem_map.mpr ⟨L, hmem, rfl⟩

/-- Every allowed label is nonempty and comma-free. -/
theorem allowed_label_props (L : String) (hL : L ∈ ALLOWED_LABELS) :
    L ≠ "" ∧ ',' ∉ L.data := by
  simp only [ALLOWED_LABELS, List.mem_cons, List.not_mem_nil, or_false] at hL
  rcases hL with rfl | rfl | rfl | rfl | rfl <;> exact ⟨by decide, by decide⟩

/-- A successfully normalized module label is one of the allowed labels. -/
theorem normalize_label_mem (lbl cap : String) (h : normalize_label lbl = some cap) :
    cap ∈ ALLOWED_LABELS := by
  simp only [normalize_label] at h
  split at h
  · rename_i hmem
    injection h with h1
    exact h1 ▸ hmem
  · exact Option.noConfusion h

/-- Claim C8: the module view for an allowed label returns exactly the items
whose stored comma-joined tag string contains the label as an exact token — a
different token of which the label is a proper substring does not match, and a
matching item with extra labels does — ordered most recent first by id. -/
theorem C8_module_exact_token_match (s : AppState) (lbl cap : String)
    (tagsOf : ItemRow → List String)
    (hnorm : normalize_label lbl = some cap)
    (hwf : ∀ it ∈ s.store.items,
       (∀ t ∈ tagsOf it, ',' ∉ t.data) ∧ it.tags = commaJoin (tagsOf it)) :
    ∃ res, module_page s lbl = Except.ok res ∧
      res.Perm (s.store.items.filter (fun it => decide (cap ∈ tagsOf it))) ∧
      List.Sorted (fun a b => b.id ≤ a.id) res := by
  have hcap := normalize_label_mem lbl cap hnorm
  obtain ⟨hne, hnc⟩ := allowed_label_props cap hcap
  have hfc : s.store.items.filter (fun it => decide (likeTagMatch it.tags cap))
      = s.store.items.filter (fun it => decide (cap ∈ tagsOf it)) := by
    apply List.filter_congr
    intro it hit
    obtain ⟨h1, h2⟩ := hwf it hit
    rw [decide_eq_decide]
    rw [h2]
    exact likeTagMatch_iff_token (tagsOf it) cap hne hnc h1
  refine ⟨sortByIdDesc (s.store.items.filter (fun it => decide (likeTagMatch it.tags cap))),
    ?_, ?_, ?_⟩
  · simp [module_page, hnorm]
  · exact (List.perm_insertionSort _ _).trans (by rw [hfc])
  · haveI ht : IsTotal ItemRow (fun a b => b.id ≤ a.id) := ⟨fun a b => Nat.le_total b.id a.id⟩
    haveI htr : IsTrans ItemRow (fun a b => b.id ≤ a.id) :=
      ⟨fun a b c h1 h2 => Nat.le_trans h2 h1⟩
    exact List.sorted_insertionSort _ _

/-- Witness for C8: querying module "recon" over the sample state (whose only
item stores the tag join of ["Recon"]) returns it, sorted. -/
theorem C8_module_exact_token_match_witness :
    ∃ res, module_page sampleState "recon" = Except.ok res ∧
      res.Perm (sampleState.store.items.filter
        (fun it => decide ("Recon" ∈ (fun _ : ItemRow => ["Recon"]) it))) ∧
      List.Sorted (fun a b => b.id ≤ a.id) res :=
  C8_module_exact_token_match sampleState "recon" "Recon" (fun _ => ["Recon"]) (by decide)
    (by decide)

end MissionSet
